import Mathlib

/-!
A shallow embedding of the form-validation-and-submission controller of this
repository (src/js/utils/Form.js) together with proofs about its behaviour.

Modelling conventions:
* Machine strings are Lean `String`s; the regular expressions of the source are
  embedded as executable character-level predicates.
* DOM inputs become the `Form.Input` record: the tracked attributes are the
  ones the controller reads (name, id, type, value, the required flag, the
  data-validate attribute, checkedness) plus the presentation state it writes
  (CSS class list, the error message of the enclosing form group).  The
  embedding assumes one input per form group, which is the markup pattern the
  controller is written for (showError and clearError address the error element
  of input.closest of the group).
* localStorage becomes `Form.Storage`: an association list from keys to already
  parsed JSON values (`Form.SVal`), with `vcorrupt` standing for a stored
  string that is not valid JSON and a `broken` flag making every storage call
  throw, as a quota or availability failure would.  JSON.stringify of a record
  is `SVal.vrecord`, so JSON round-trips are exact, as they are for the
  string-valued records the controller stores.
* Side effects other than field and storage mutation (callback invocations,
  toast and overlay notifications, console logging) are accumulated in an
  event list inside `Form.World`.  The user callbacks are modelled as pure
  functions returning `Form.CbRet`: only the distinction "returned the boolean
  false" versus anything else is observable to the controller.
* setTimeout of the post-submit reset is modelled by the `pendingResets`
  counter of the world: handleSubmit schedules one deferred reset, and
  `fireDeferredReset` executes one.  The source attaches no token or id to the
  timeout, so all pending callbacks run the same closure; the counter is a
  faithful model.  The shorter-lived timers (overlay removal, the 5 second
  general-error removal) touch state no claim observes and are not modelled.
* `new Date().toISOString()` is passed in as an explicit timestamp parameter.
-/

namespace Form

/-- JS whitespace as used by the source (String.prototype.trim and the regex
class backslash-s), restricted to the ASCII range occurring in this code. -/
def jsSpace (c : Char) : Bool :=
  c = ' ' || c = '\t' || c = '\n' || c = '\r' || c = '\x0b' || c = '\x0c'

/-- Embedding of value.trim() from validateField (Form.js line 146). -/
def jsTrim (s : String) : String :=
  ⟨((s.data.dropWhile jsSpace).reverse.dropWhile jsSpace).reverse⟩

/-- classList.add: appends the class unless already present. -/
def classAdd (cs : List String) (c : String) : List String :=
  if cs.contains c then cs else cs ++ [c]

/-- classList.remove: removes every occurrence of the class. -/
def classRemove (cs : List String) (c : String) : List String :=
  cs.filter (fun x => x != c)

/-- Character class of the email regex pieces: anything but whitespace and @. -/
def emailChar (c : Char) : Bool := !(jsSpace c) && c != '@'

/-- Structural splitter on a separator character (used to embed the anchored
email regex without a regex engine). -/
def splitOnChar : List Char → Char → List Char → List (List Char)
  | [], _, acc => [acc.reverse]
  | c :: t, sep, acc =>
    if c == sep then acc.reverse :: splitOnChar t sep []
    else splitOnChar t sep (c :: acc)

/-- Embedding of the default email rule of Form.js line 14, the anchored
regex one-or-more emailChar, @, one-or-more emailChar, a dot, one-or-more
emailChar.  The string matches iff it has exactly one @ (neither side of the
pattern admits @), both sides are nonempty and whitespace-free, and the part
after the @ contains a dot that is neither its first nor its last character
(the backtracking engine may place the mandatory dot at any such position). -/
def emailTest (s : String) : Bool :=
  match splitOnChar s.data '@' [] with
  | [a, b] =>
    !a.isEmpty && a.all emailChar && !b.isEmpty && b.all emailChar &&
      ((b.drop 1).dropLast.contains '.')
  | _ => false

/-- Character class of the default phone rule of Form.js line 15. -/
def phoneChar (c : Char) : Bool :=
  c.isDigit || jsSpace c || c = '-' || c = '+' || c = '(' || c = ')'

/-- Embedding of the default phone rule: one or more phoneChar, anchored. -/
def phoneTest (s : String) : Bool :=
  !s.data.isEmpty && s.data.all phoneChar

/-- The special characters admitted by the default password rule. -/
def passwordSpecials : List Char := ['@', '$', '!', '%', '*', '#', '?', '&']

/-- Character class of the default password rule of Form.js line 16. -/
def passwordChar (c : Char) : Bool :=
  c.isAlpha || c.isDigit || passwordSpecials.contains c

/-- Embedding of the default password rule: at least 8 admitted characters,
with at least one letter and one digit (the two lookaheads). -/
def passwordTest (s : String) : Bool :=
  s.data.any Char.isAlpha && s.data.any Char.isDigit &&
    decide (8 ≤ s.data.length) && s.data.all passwordChar

/-- A collected form value: a string, or the array of checked checkbox ids
accumulated under the interests key by collectFormData. -/
inductive FVal where
  | s (v : String)
  | arr (vs : List String)
deriving Repr, DecidableEq

/-- Coercion applied when a collected value is written back into input.value
by populateForm: JS stringifies an array by joining with commas. -/
def FVal.toDisplayString : FVal → String
  | FVal.s v => v
  | FVal.arr vs => String.intercalate "," vs

/-- One submission record: a JS object as an insertion-ordered association
list with unique keys (maintained by setAssoc). -/
abbrev SubRecord := List (String × FVal)

/-- Property read on a JS object or storage: first binding of the key. -/
def getAssoc {α : Type} : List (String × α) → String → Option α
  | [], _ => none
  | (k, v) :: t, q => if k == q then some v else getAssoc t q

/-- Property write on a JS object or storage: replace the binding in place if
the key exists (JS objects keep the original key position), append otherwise. -/
def setAssoc {α : Type} : List (String × α) → String → α → List (String × α)
  | [], q, v => [(q, v)]
  | (k, w) :: t, q, v =>
    if k == q then (q, v) :: t else (k, w) :: setAssoc t q v

/-- Property removal (localStorage.removeItem). -/
def removeAssoc {α : Type} (l : List (String × α)) (q : String) :
    List (String × α) :=
  l.filter (fun kv => kv.1 != q)

/-- One tracked input or textarea element.  `ty` is the type attribute (type
is a reserved word in Lean).  `classes` and `errorMsg` are the presentation
state the controller writes; `defaultValue` and `defaultChecked` are what the
DOM form.reset() restores. -/
structure Input where
  name : String
  id : String
  ty : String
  value : String
  defaultValue : String
  required : Bool
  dataValidate : Option String
  checked : Bool
  defaultChecked : Bool
  classes : List String
  errorMsg : Option String
deriving Repr, DecidableEq

/-- The bound form element: its id, the tracked inputs in document order, and
the general (form-level) error element text. -/
structure FormState where
  id : String
  inputs : List Input
  generalError : Option String
deriving Repr, DecidableEq

/-- What the controller observes of an onSubmit callback return value: the
boolean false (which aborts the submission), or anything else. -/
inductive CbRet where
  | retFalse
  | retOther
deriving Repr, DecidableEq

/-- The controller configuration after the constructor merged the defaults:
`rules` and `msgs` are the merged mappings (caller entries first, so lookup
by first match realises the override-merge of the object spreads at Form.js
lines 13-27).  Callback presence is tracked by flags; the onSubmit decision
function is kept because its return value steers the submission. -/
structure FormCfg where
  rules : List (String × (String → Bool))
  msgs : List (String × String)
  onSubmit : Option (SubRecord → CbRet)
  hasOnSuccess : Bool
  hasOnError : Bool
  showSuccessMessage : Bool
  successMessageType : String
  successMessage : String

/-- The built-in validation rules of Form.js lines 14-16. -/
def defaultRules : List (String × (String → Bool)) :=
  [("email", emailTest), ("phone", phoneTest), ("password", passwordTest)]

/-- Merge of caller-supplied rules over the defaults (object spread of
Form.js lines 13-18): caller entries shadow defaults under getAssoc. -/
def mkRules (custom : List (String × (String → Bool))) :
    List (String × (String → Bool)) :=
  custom ++ defaultRules

/-- The built-in error messages of Form.js lines 19-27. -/
def defaultMsgs : List (String × String) :=
  [("required", "This field is required"),
   ("email", "Please enter a valid email address"),
   ("phone", "Please enter a valid phone number"),
   ("password", "Password must be at least 8 characters with letters and numbers"),
   ("passwordMatch", "Passwords do not match")]

/-- Merge of caller-supplied messages over the defaults. -/
def mkMsgs (custom : List (String × String)) : List (String × String) :=
  custom ++ defaultMsgs

/-- Message lookup, as in this.errorMessages[name].  A missing message is
rendered as the string undefined by textContent assignment. -/
def msgFor (cfg : FormCfg) (name : String) : String :=
  match getAssoc cfg.msgs name with
  | some m => m
  | none => "undefined"

/-- Rule lookup for the three built-in rule names.  The constructor merge
guarantees these are always present, so the fallback arm is unreachable for
configurations built with mkRules. -/
def ruleFor (cfg : FormCfg) (name : String) : String → Bool :=
  match getAssoc cfg.rules name with
  | some p => p
  | none => fun _ => true

/-- clearError of Form.js lines 243-254, restricted to one input: remove the
three validation classes and the error element of its group. -/
def clearErrorI (i : Input) : Input :=
  { i with
    classes :=
      classRemove
        (classRemove (classRemove i.classes "form__input--invalid")
          "form__input--valid")
        "form__input--error",
    errorMsg := none }

/-- showError of Form.js lines 216-236, restricted to one input: add the
invalid class, remove the valid class, add the error class, and set the error
element text of the group. -/
def showErrorI (i : Input) (message : String) : Input :=
  { i with
    classes :=
      classAdd
        (classRemove (classAdd i.classes "form__input--invalid")
          "form__input--valid")
        "form__input--error",
    errorMsg := some message }

/-- this.form.querySelector of the id password (Form.js line 194): the first
tracked input whose id is password. -/
def pwInput (f : FormState) : Option Input :=
  f.inputs.find? (fun p => p.id == "password")

/-- The current raw value of the primary password field, when present. -/
def pwValue (f : FormState) : Option String :=
  (pwInput f).map (fun p => p.value)

/-- The custom data-validate check of Form.js lines 167-174: applies when the
attribute is present and nonempty (getAttribute truthiness), the trimmed value
is nonempty, and the named rule exists in the merged mapping; fails with the
message registered under the same name. -/
def customFails (cfg : FormCfg) (dv : Option String) (value : String) :
    Option String :=
  match dv with
  | none => none
  | some cv =>
    if cv != "" && value != "" then
      match getAssoc cfg.rules cv with
      | some pred => if !(pred value) then some (msgFor cfg cv) else none
      | none => none
    else none

/-- The error decision of validateField (Form.js lines 145-199): the message
of the first failing check in source order, none when every check passes.
The checks read only the value-level attributes of the input and the current
value of the primary password field (through pwValue, which is definitionally
the querySelector followed by the value read of the source). -/
def fieldError (cfg : FormCfg) (f : FormState) (i : Input) : Option String :=
  let value := jsTrim i.value
  if i.required && value == "" then some (msgFor cfg "required")
  else if i.ty == "email" && value != "" && !(ruleFor cfg "email" value) then
    some (msgFor cfg "email")
  else
    match customFails cfg i.dataValidate value with
    | some m => some m
    | none =>
      if i.ty == "tel" && value != "" && !(ruleFor cfg "phone" value) then
        some (msgFor cfg "phone")
      else if i.ty == "password" && value != "" && i.id == "password" &&
          !(ruleFor cfg "password" value) then
        some (msgFor cfg "password")
      else if i.id == "password-confirmation" && value != "" then
        match pwValue f with
        | some pv => if value != pv then some (msgFor cfg "passwordMatch") else none
        | none => none
      else none

/-- validateField of Form.js lines 145-208: clears the previous error, reports
the first failing check through showError and returns false, or, when every
check passes, marks a nonempty field valid and returns true. -/
def validateField (cfg : FormCfg) (f : FormState) (i : Input) : Bool × Input :=
  let value := jsTrim i.value
  let ic := clearErrorI i
  match fieldError cfg f i with
  | some m => (false, showErrorI ic m)
  | none =>
    if value != "" then
      (true,
        { ic with
          classes :=
            classRemove (classAdd ic.classes "form__input--valid")
              "form__input--invalid" })
    else (true, ic)

/-- The forEach loop of validateForm (Form.js lines 261-271), iterating the
tracked inputs by position and writing each validated input back.  The fuel
argument only bounds the iteration count; validateForm passes the length of
the list, so every position is processed exactly once. -/
def validateFormLoop (cfg : FormCfg) : Nat → FormState → Nat → Bool → Bool × FormState
  | 0, f, _, acc => (acc, f)
  | fuel + 1, f, k, acc =>
    if h : k < f.inputs.length then
      if (f.inputs.get ⟨k, h⟩).required || jsTrim (f.inputs.get ⟨k, h⟩).value != "" then
        validateFormLoop cfg fuel
          { f with inputs := f.inputs.set k (validateField cfg f (f.inputs.get ⟨k, h⟩)).2 }
          (k + 1) (acc && (validateField cfg f (f.inputs.get ⟨k, h⟩)).1)
      else validateFormLoop cfg fuel f (k + 1) acc
    else (acc, f)

/-- validateForm of Form.js lines 261-271: validates every input that is
required or has a nonempty trimmed value and conjoins the results. -/
def validateForm (cfg : FormCfg) (f : FormState) : Bool × FormState :=
  validateFormLoop cfg f.inputs.length f 0 true

/-- Membership of an input in new FormData(form): it must be named, and a
checkbox or radio contributes only while checked. -/
def inFormData (i : Input) : Bool :=
  i.name != "" && (if i.ty == "checkbox" || i.ty == "radio" then i.checked else true)

/-- collectFormData of Form.js lines 340-366: the FormData entries keyed by
name, then the checked checkbox ids accumulated under the interests key, then
one value per checked radio (value, falling back to id when the value is
empty).  In the corner where a string value already sits under the interests
key and is nonempty, the source would throw a TypeError (push on a string);
the model leaves the data unchanged there — no form of this repository and no
claim reaches that corner. -/
def collectFormData (f : FormState) : SubRecord :=
  let base :=
    (f.inputs.filter inFormData).foldl
      (fun d i => setAssoc d i.name (FVal.s i.value)) []
  let withInterests :=
    (f.inputs.filter (fun i => i.ty == "checkbox" && i.checked)).foldl
      (fun d cb =>
        match getAssoc d "interests" with
        | some (FVal.arr l) => setAssoc d "interests" (FVal.arr (l ++ [cb.id]))
        | some (FVal.s v) =>
          if v == "" then setAssoc d "interests" (FVal.arr [cb.id]) else d
        | none => setAssoc d "interests" (FVal.arr [cb.id]))
      base
  (f.inputs.filter (fun i => i.ty == "radio" && i.checked)).foldl
    (fun d r => setAssoc d r.name (FVal.s (if r.value != "" then r.value else r.id)))
    withInterests

/-- A stored value, already on the JSON level: a record object, an array of
records, the JSON null, or a string that is not valid JSON. -/
inductive SVal where
  | vrecord (r : SubRecord)
  | vrecords (rs : List SubRecord)
  | vnull
  | vcorrupt (s : String)
deriving Repr, DecidableEq

/-- The Storage collaborator: localStorage as a keyed store with a broken
flag under which every call throws. -/
structure Storage where
  items : List (String × SVal)
  broken : Bool
deriving Repr, DecidableEq

/-- localStorage.getItem, fallible. -/
def Storage.getItem (st : Storage) (k : String) : Except Unit (Option SVal) :=
  if st.broken then Except.error () else Except.ok (getAssoc st.items k)

/-- localStorage.setItem, fallible. -/
def Storage.setItem (st : Storage) (k : String) (v : SVal) : Except Unit Storage :=
  if st.broken then Except.error ()
  else Except.ok { st with items := setAssoc st.items k v }

/-- localStorage.removeItem, fallible. -/
def Storage.removeItem (st : Storage) (k : String) : Except Unit Storage :=
  if st.broken then Except.error ()
  else Except.ok { st with items := removeAssoc st.items k }

/-- Observable side effects of one controller run, in order of occurrence. -/
inductive Event where
  | onErrorCalled (d : SubRecord)
  | onSuccessCalled (d : SubRecord)
  | toastShown (msg : String)
  | overlayShown
  | consoleWarn (msg : String)
  | consoleError (msg : String)
deriving Repr, DecidableEq

/-- The whole mutable state one submission cycle touches. -/
structure World where
  form : FormState
  cfg : FormCfg
  formData : SubRecord
  storage : Storage
  toastAvailable : Bool
  events : List Event
  pendingResets : Nat

/-- this.form.id with its default (Form.js lines 373 and 414). -/
def formIdOf (f : FormState) : String :=
  if f.id != "" then f.id else "form_data"

/-- The remember-me gate of Form.js lines 377-378: the checked state of the
first input named remember-me, true when no such input exists. -/
def shouldRememberOf (f : FormState) : Bool :=
  match f.inputs.find? (fun i => i.name == "remember-me") with
  | some cb => cb.checked
  | none => true

/-- JSON.parse of the stored history followed by the or-empty-array default
and the array push precondition (Form.js lines 395-397): a missing entry
parses to null and defaults to the empty array, as does a stored null; a
stored array is used as is; a stored non-array object survives parsing but
makes push throw; a corrupt string makes JSON.parse throw. -/
def parseHistory : Option SVal → Except Unit (List SubRecord)
  | none => Except.ok []
  | some SVal.vnull => Except.ok []
  | some (SVal.vrecords rs) => Except.ok rs
  | some (SVal.vrecord _) => Except.error ()
  | some (SVal.vcorrupt _) => Except.error ()

/-- The single log entry of the catch block of saveToStorage. -/
def saveErrorLog : Event := Event.consoleError "Error saving to localStorage:"

/-- saveToStorage of Form.js lines 372-407.  The whole body sits in one try
block: any throw lands in the catch, which logs and returns, keeping whatever
writes already happened.  Step order as in the source: write or clear the
single-record slot, read and parse the history, append the record, evict the
oldest when the length exceeds 10, write the history back. -/
def saveToStorage (w : World) (ts : String) : World :=
  let formId := formIdOf w.form
  let dataToSave := setAssoc w.formData "submittedAt" (FVal.s ts)
  let step1 : Except Unit Storage :=
    if shouldRememberOf w.form then
      w.storage.setItem formId (SVal.vrecord dataToSave)
    else w.storage.removeItem formId
  match step1 with
  | Except.error _ => { w with events := w.events ++ [saveErrorLog] }
  | Except.ok st1 =>
    match st1.getItem (formId ++ "_history") with
    | Except.error _ => { w with storage := st1, events := w.events ++ [saveErrorLog] }
    | Except.ok raw =>
      match parseHistory raw with
      | Except.error _ =>
        { w with storage := st1, events := w.events ++ [saveErrorLog] }
      | Except.ok hist =>
        let hist1 := hist ++ [dataToSave]
        let hist2 := if hist1.length > 10 then hist1.tail else hist1
        match st1.setItem (formId ++ "_history") (SVal.vrecords hist2) with
        | Except.error _ =>
          { w with storage := st1, events := w.events ++ [saveErrorLog] }
        | Except.ok st2 => { w with storage := st2 }

/-- The success notification dispatch of Form.js lines 309-315 and showToast
lines 475-485: overlay by default, toast when configured and the toast system
is present, console warning plus overlay fallback otherwise. -/
def notifyEvents (cfg : FormCfg) (toastAvailable : Bool) : List Event :=
  if cfg.showSuccessMessage then
    if cfg.successMessageType == "toast" then
      if toastAvailable then [Event.toastShown cfg.successMessage]
      else [Event.consoleWarn "Toast system not loaded, falling back to overlay",
            Event.overlayShown]
    else [Event.overlayShown]
  else []

/-- The tail of handleSubmit after the onSubmit gate (Form.js lines 305-332):
persist, notify, invoke onSuccess, schedule the deferred reset. -/
def afterSubmit (w : World) (ts : String) : World :=
  let w1 := saveToStorage w ts
  let w2 := { w1 with events := w1.events ++ notifyEvents w1.cfg w1.toastAvailable }
  let w3 :=
    if w2.cfg.hasOnSuccess then
      { w2 with events := w2.events ++ [Event.onSuccessCalled w2.formData] }
    else w2
  { w3 with pendingResets := w3.pendingResets + 1 }

/-- Whether the configured onSubmit callback lets the submission proceed:
true when absent or when it returns anything but the boolean false, applied
to the data handleSubmit collects before validating. -/
def onSubmitAllows (w : World) : Bool :=
  match w.cfg.onSubmit with
  | none => true
  | some cb => cb (collectFormData w.form) != CbRet.retFalse

/-- handleSubmit of Form.js lines 278-333: collect the data first, validate
everything, on failure surface the general error and invoke onError, on
success consult onSubmit (a returned boolean false stops the cycle cold),
then persist, notify, invoke onSuccess and schedule the deferred reset. -/
def handleSubmit (w : World) (ts : String) : World :=
  let w1 := { w with formData := collectFormData w.form }
  let vr := validateForm w1.cfg w1.form
  let w2 := { w1 with form := vr.2 }
  if vr.1 then
    match w2.cfg.onSubmit with
    | some cb => if cb w2.formData == CbRet.retFalse then w2 else afterSubmit w2 ts
    | none => afterSubmit w2 ts
  else
    let w3 :=
      { w2 with
        form := { w2.form with generalError := some "Please fix all errors before submitting" } }
    if w3.cfg.hasOnError then
      { w3 with events := w3.events ++ [Event.onErrorCalled w3.formData] }
    else w3

/-- What the static getSubmissions can hand back: the source returns whatever
JSON.parse produced when the stored string is truthy, so beside an array it
can return a plain object or null. -/
inductive GetSubsRet where
  | arr (rs : List SubRecord)
  | obj (r : SubRecord)
  | jnull
deriving Repr, DecidableEq

/-- String truthiness of a stored value: only the empty string is falsy among
the serialised forms our storage model ranges over. -/
def svalTruthy : SVal → Bool
  | SVal.vcorrupt s => s != ""
  | _ => true

/-- Static Form.getSubmissions of Form.js lines 543-551: read the history
key inside a try block; a missing or empty entry yields the empty array, a
parse failure or storage failure is caught and yields the empty array, and
otherwise the parse result is returned as is. -/
def getSubmissions (st : Storage) (formId : String) : GetSubsRet :=
  match st.getItem (formId ++ "_history") with
  | Except.error _ => GetSubsRet.arr []
  | Except.ok none => GetSubsRet.arr []
  | Except.ok (some sv) =>
    if svalTruthy sv then
      match sv with
      | SVal.vrecords rs => GetSubsRet.arr rs
      | SVal.vrecord r => GetSubsRet.obj r
      | SVal.vnull => GetSubsRet.jnull
      | SVal.vcorrupt _ => GetSubsRet.arr []
    else GetSubsRet.arr []

/-- querySelector update: apply the update to the first matching input. -/
def setFirstInput (l : List Input) (p : Input → Bool) (u : Input → Input) :
    List Input :=
  match l with
  | [] => []
  | i :: t => if p i then u i :: t else i :: setFirstInput t p u

/-- populateForm of Form.js lines 437-444: for each key of the record in
insertion order, write the value into the first input of that name, skipping
the submittedAt key. -/
def populateForm (f : FormState) (data : SubRecord) : FormState :=
  data.foldl
    (fun g kv =>
      if kv.1 != "submittedAt" then
        { g with
          inputs :=
            setFirstInput g.inputs (fun i => i.name == kv.1)
              (fun i => { i with value := FVal.toDisplayString kv.2 }) }
      else g)
    f

/-- The remember-me re-check of loadFromStorage (Form.js lines 423-426). -/
def checkRememberBox (f : FormState) : FormState :=
  { f with
    inputs :=
      setFirstInput f.inputs (fun i => i.name == "remember-me")
        (fun i => { i with checked := true }) }

/-- loadFromStorage of Form.js lines 413-431: read the single-record slot
inside a try block; when a truthy entry parses to a record, populate the form
and check the remember-me box.  A corrupt entry (parse throw), a stored null
(populateForm throws on Object.keys of null, caught), and a storage failure
all leave the form untouched; a stored array would populate index-named
fields, a case no form of this repository has and no claim exercises, and is
modelled as leaving the form untouched. -/
def loadFromStorage (f : FormState) (st : Storage) : FormState :=
  match st.getItem (formIdOf f) with
  | Except.error _ => f
  | Except.ok none => f
  | Except.ok (some sv) =>
    match sv with
    | SVal.vrecord r => checkRememberBox (populateForm f r)
    | _ => f

/-- The DOM form.reset(): every control returns to its markup default. -/
def formDomReset (f : FormState) : FormState :=
  { f with
    inputs :=
      f.inputs.map (fun i => { i with value := i.defaultValue, checked := i.defaultChecked }) }

/-- clearAllErrors of Form.js lines 513-520: remove every error element of
the form and the error class of every input. -/
def clearAllErrorsF (f : FormState) : FormState :=
  { f with
    inputs :=
      f.inputs.map
        (fun i => { i with errorMsg := none, classes := classRemove i.classes "form__input--error" }) }

/-- The validity class sweep shared by reset (lines 530-534) and the deferred
reset closure (lines 327-331). -/
def clearValidityClasses (f : FormState) : FormState :=
  { f with
    inputs :=
      f.inputs.map
        (fun i =>
          { i with
            classes := classRemove (classRemove i.classes "form__input--valid") "form__input--invalid" }) }

/-- The form-state effect shared by the public reset() (Form.js lines
525-535) and the deferred reset closure of handleSubmit (lines 323-332):
form.reset(), clearAllErrors(), and the validity class sweep. -/
def clearedForm (f : FormState) : FormState :=
  clearValidityClasses (clearAllErrorsF (formDomReset f))

/-- The public reset() of Form.js lines 525-535: the shared clearing steps
plus the tracked data wipe this.formData equals the empty object. -/
def reset (w : World) : World :=
  { w with form := clearedForm w.form, formData := [] }

/-- Firing one pending deferred reset scheduled by handleSubmit (Form.js
lines 323-332).  The source attaches no generation token or timer id to the
closure, so every pending callback runs the same code unconditionally. -/
def fireDeferredReset (w : World) : World :=
  if w.pendingResets = 0 then w
  else { w with form := clearedForm w.form, pendingResets := w.pendingResets - 1 }

/-- The history slot as saveToStorage will successfully parse it: the list
it denotes, or none when a write would throw there. -/
def historyOf (st : Storage) (fid : String) : Option (List SubRecord) :=
  match getAssoc st.items (fid ++ "_history") with
  | none => some []
  | some SVal.vnull => some []
  | some (SVal.vrecords rs) => some rs
  | some (SVal.vrecord _) => none
  | some (SVal.vcorrupt _) => none

/-- The record a submission at the given instant persists. -/
def submittedRecord (w : World) (ts : String) : SubRecord :=
  setAssoc (collectFormData w.form) "submittedAt" (FVal.s ts)

/-- Forgetting the presentation state of an input: used to state that
validation mutates classes and error messages only. -/
def stripUI (i : Input) : Input := { i with classes := [], errorMsg := none }

/-- The per-field checks of validateField in source order, as independent
results: entry k is the failure message of check k when that check is
applicable and fails, none otherwise.  validateField is proved to report
exactly the first some of this list. -/
def checkList (cfg : FormCfg) (pwv : Option String) (i : Input) :
    List (Option String) :=
  let value := jsTrim i.value
  [if i.required && value == "" then some (msgFor cfg "required") else none,
   if i.ty == "email" && value != "" && !(ruleFor cfg "email" value) then
     some (msgFor cfg "email")
   else none,
   customFails cfg i.dataValidate value,
   if i.ty == "tel" && value != "" && !(ruleFor cfg "phone" value) then
     some (msgFor cfg "phone")
   else none,
   if i.ty == "password" && value != "" && i.id == "password" &&
       !(ruleFor cfg "password" value) then
     some (msgFor cfg "password")
   else none,
   match pwv with
   | some pv =>
     if i.id == "password-confirmation" && value != "" && value != pv then
       some (msgFor cfg "passwordMatch")
     else none
   | none => none]

end Form

namespace Form

/-! Concrete fixtures used by the witness and counterexample theorems. -/

/-- A configuration with no custom rules, messages or callbacks. -/
def exCfg : FormCfg :=
  { rules := mkRules [], msgs := mkMsgs [], onSubmit := none,
    hasOnSuccess := false, hasOnError := false, showSuccessMessage := false,
    successMessageType := "overlay", successMessage := "ok" }

/-- Fixture input constructor: a plain input with clean presentation state. -/
def mkInput (name id ty value : String) (req : Bool) : Input :=
  { name := name, id := id, ty := ty, value := value, defaultValue := "",
    required := req, dataValidate := none, checked := false,
    defaultChecked := false, classes := [], errorMsg := none }

/-- A one-field form whose single optional input holds a value. -/
def exForm : FormState :=
  { id := "myform", inputs := [mkInput "n" "f1" "text" "hi" false],
    generalError := none }

/-- A working world around exForm with empty storage. -/
def exWorld : World :=
  { form := exForm, cfg := exCfg, formData := [],
    storage := { items := [], broken := false },
    toastAvailable := false, events := [], pendingResets := 0 }

/-- The C2 counterexample input: id password but type text, which is exactly
the state the password visibility toggle of Form.js lines 77-81 puts the
field in, holding a value the default password rule rejects. -/
def cexInput : Input := mkInput "pw" "password" "text" "short1" false

/-- The form around the C2 counterexample input. -/
def cexForm : FormState :=
  { id := "f", inputs := [cexInput], generalError := none }

/-- C3 fixture: the primary password field. -/
def exPwInput : Input :=
  mkInput "password" "password" "password" "abcd1234" false

/-- C3 fixture: a confirmation field whose value differs from the primary. -/
def exConfInput : Input :=
  mkInput "password-confirmation" "password-confirmation" "password" "abcd1235" false

/-- C3 fixture: a form holding the primary and the confirmation field. -/
def exPwForm : FormState :=
  { id := "lf", inputs := [exPwInput, exConfInput], generalError := none }

/-- C4 fixture: a configuration whose onSubmit returns the boolean false. -/
def exCfgVeto : FormCfg := { exCfg with onSubmit := some (fun _ => CbRet.retFalse) }

/-- C4 fixture: the working world with the vetoing configuration. -/
def exWorldVeto : World := { exWorld with cfg := exCfgVeto }

/-- C7 fixture: success message and onSuccess callback enabled. -/
def exCfgFull : FormCfg :=
  { exCfg with showSuccessMessage := true, hasOnSuccess := true }

/-- C7 fixture: the full configuration over a storage that throws. -/
def exWorldBroken : World :=
  { exWorld with cfg := exCfgFull, storage := { items := [], broken := true } }

/-- C6 fixture: a fresh controller instance over the same form identity with
an empty field. -/
def exFreshForm : FormState :=
  { id := "myform", inputs := [mkInput "n" "f1" "text" "" false],
    generalError := none }

/-- C10 fixture: a storage that throws on every access. -/
def exStorageBroken : Storage := { items := [], broken := true }

/-- C10 fixture: a history entry that is not valid JSON. -/
def exStorageCorrupt : Storage :=
  { items := [("fid" ++ "_history", SVal.vcorrupt "oops")], broken := false }

end Form

namespace Form

/-! Helper lemmas about the association-list operations. -/

theorem getAssoc_setAssoc_self {α : Type} (l : List (String × α)) (k : String) (v : α) :
    getAssoc (setAssoc l k v) k = some v := by
  induction l with
  | nil => simp [setAssoc, getAssoc]
  | cons kv t ih =>
    cases kv with
    | mk k0 v0 =>
      simp only [setAssoc]
      by_cases hk : k0 = k
      · have hb : (k0 == k) = true := beq_iff_eq.mpr hk
        simp [hb, getAssoc]
      · have hb : (k0 == k) = false := beq_eq_false_iff_ne.mpr hk
        simp [hb, getAssoc, ih]

theorem getAssoc_setAssoc_ne {α : Type} (l : List (String × α)) (k q : String) (v : α)
    (h : q ≠ k) : getAssoc (setAssoc l k v) q = getAssoc l q := by
  have hkq : (k == q) = false := beq_eq_false_iff_ne.mpr (Ne.symm h)
  induction l with
  | nil => simp [setAssoc, getAssoc, hkq]
  | cons kv t ih =>
    cases kv with
    | mk k0 v0 =>
      simp only [setAssoc]
      by_cases hk : k0 = k
      · have hb : (k0 == k) = true := beq_iff_eq.mpr hk
        have h2 : (k0 == q) = false := by rw [hk]; exact hkq
        simp [hb, getAssoc, hkq, h2]
      · have hb : (k0 == k) = false := beq_eq_false_iff_ne.mpr hk
        simp [hb, getAssoc, ih]

theorem getAssoc_removeAssoc_ne {α : Type} (l : List (String × α)) (k q : String)
    (h : q ≠ k) : getAssoc (removeAssoc l k) q = getAssoc l q := by
  induction l with
  | nil => simp [removeAssoc, getAssoc]
  | cons kv t ih =>
    cases kv with
    | mk k0 v0 =>
      simp only [removeAssoc, List.filter_cons] at *
      by_cases hk : k0 = k
      · have hb : ((k0, v0).1 != k) = false := by
          simp [bne, beq_iff_eq, hk]
        have h2 : (k0 == q) = false := by
          rw [hk]; exact beq_eq_false_iff_ne.mpr (Ne.symm h)
        simp [hb, getAssoc, h2, ih]
      · have hb : ((k0, v0).1 != k) = true := bne_iff_ne.mpr hk
        simp [hb, getAssoc, ih]

/-- The single-record key and the history key of one form never collide. -/
theorem formId_ne_histKey (fid : String) : fid ≠ fid ++ "_history" := by
  intro h
  have hd : fid.data = fid.data ++ "_history".data := by
    have h2 := congrArg String.data h
    rw [String.data_append] at h2
    exact h2
  have hlen := congrArg List.length hd
  rw [List.length_append] at hlen
  have h8 : "_history".data.length = 8 := rfl
  omega

end Form

namespace Form

/-! Basic facts about validateField: its boolean result and displayed message
are determined by fieldError, and it touches presentation state only. -/

theorem validateField_fst (cfg : FormCfg) (f : FormState) (i : Input) :
    (validateField cfg f i).1 = (fieldError cfg f i).isNone := by
  unfold validateField
  cases h : fieldError cfg f i with
  | some m => simp [h]
  | none =>
    simp only [h]
    split <;> simp

theorem validateField_errorMsg (cfg : FormCfg) (f : FormState) (i : Input) :
    ((validateField cfg f i).2).errorMsg = fieldError cfg f i := by
  unfold validateField
  cases h : fieldError cfg f i with
  | some m => simp [h, showErrorI]
  | none =>
    simp only [h]
    split <;> simp [clearErrorI]

theorem stripUI_validateField (cfg : FormCfg) (f : FormState) (i : Input) :
    stripUI (validateField cfg f i).2 = stripUI i := by
  unfold validateField
  cases h : fieldError cfg f i with
  | some m => simp only [h]; rfl
  | none =>
    simp only [h]
    split <;> rfl

/-! Validation reads inputs only through their value-level attributes, so any
two forms whose inputs agree up to presentation state validate alike. -/

theorem find?_map_strip (p : Input → Bool) (hp : ∀ i, p (stripUI i) = p i)
    (l : List Input) : (l.map stripUI).find? p = (l.find? p).map stripUI := by
  induction l with
  | nil => rfl
  | cons i t ih =>
    simp only [List.map_cons]
    cases hb : p i with
    | true =>
      have hb2 : p (stripUI i) = true := by rw [hp]; exact hb
      rw [List.find?_cons_of_pos _ hb2, List.find?_cons_of_pos _ hb]
      rfl
    | false =>
      have hb2 : ¬ p (stripUI i) = true := by simp [hp, hb]
      rw [List.find?_cons_of_neg _ hb2, List.find?_cons_of_neg _ (by simp [hb])]
      exact ih

theorem pwValue_strip (f g : FormState)
    (h : f.inputs.map stripUI = g.inputs.map stripUI) : pwValue f = pwValue g := by
  have hp : ∀ i : Input, ((stripUI i).id == "password") = (i.id == "password") :=
    fun i => rfl
  have key : ∀ l : List Input,
      ((l.map stripUI).find? (fun p => p.id == "password")).map (fun p => p.value)
        = (l.find? (fun p => p.id == "password")).map (fun p => p.value) := by
    intro l
    rw [find?_map_strip _ hp l]
    cases l.find? (fun p => p.id == "password") <;> rfl
  unfold pwValue pwInput
  calc (f.inputs.find? (fun p => p.id == "password")).map (fun p => p.value)
      = ((f.inputs.map stripUI).find? (fun p => p.id == "password")).map (fun p => p.value) :=
        (key f.inputs).symm
    _ = ((g.inputs.map stripUI).find? (fun p => p.id == "password")).map (fun p => p.value) := by
        rw [h]
    _ = (g.inputs.find? (fun p => p.id == "password")).map (fun p => p.value) :=
        key g.inputs

theorem fieldError_congr (cfg : FormCfg) {f g : FormState} (i : Input)
    (h : f.inputs.map stripUI = g.inputs.map stripUI) :
    fieldError cfg f i = fieldError cfg g i := by
  unfold fieldError
  rw [pwValue_strip f g h]

theorem shouldRememberOf_strip (f g : FormState)
    (h : f.inputs.map stripUI = g.inputs.map stripUI) :
    shouldRememberOf f = shouldRememberOf g := by
  have hp : ∀ i : Input, ((stripUI i).name == "remember-me") = (i.name == "remember-me") :=
    fun i => rfl
  have hmap : (f.inputs.find? (fun i => i.name == "remember-me")).map stripUI
      = (g.inputs.find? (fun i => i.name == "remember-me")).map stripUI := by
    rw [← find?_map_strip _ hp, ← find?_map_strip _ hp, h]
  unfold shouldRememberOf
  cases hf : f.inputs.find? (fun i => i.name == "remember-me") with
  | none =>
    cases hg : g.inputs.find? (fun i => i.name == "remember-me") with
    | none => rfl
    | some b => rw [hf, hg] at hmap; simp at hmap
  | some a =>
    cases hg : g.inputs.find? (fun i => i.name == "remember-me") with
    | none => rw [hf, hg] at hmap; simp at hmap
    | some b =>
      rw [hf, hg] at hmap
      simp at hmap
      have hc : a.checked = b.checked := by
        have hck := congrArg Input.checked hmap
        exact hck
      simp [hc]

/-! List helpers for the validateForm loop. -/

theorem list_set_get_self {α : Type} :
    ∀ (l : List α) (k : Nat) (h : k < l.length), l.set k (l.get ⟨k, h⟩) = l := by
  intro l
  induction l with
  | nil => intro k h; simp at h
  | cons a t ih =>
    intro k h
    cases k with
    | zero => rfl
    | succ n =>
      show a :: t.set n (t.get ⟨n, _⟩) = a :: t
      rw [ih n (by simpa using h)]

theorem list_drop_succ_set {α : Type} :
    ∀ (l : List α) (k : Nat) (a : α), (l.set k a).drop (k + 1) = l.drop (k + 1) := by
  intro l
  induction l with
  | nil => intro k a; rfl
  | cons x t ih =>
    intro k a
    cases k with
    | zero => rfl
    | succ n =>
      show (t.set n a).drop (n + 1) = t.drop (n + 1)
      exact ih n a

end Form

namespace Form

/-- Writing the validated input back at its position changes the inputs only
up to presentation state. -/
theorem stripSet (cfg : FormCfg) (f : FormState) (k : Nat) (hk : k < f.inputs.length) :
    (f.inputs.set k (validateField cfg f (f.inputs.get ⟨k, hk⟩)).2).map stripUI
      = f.inputs.map stripUI := by
  have hlt2 : k < (f.inputs.map stripUI).length := by simpa using hk
  rw [List.map_set, stripUI_validateField]
  have hget : stripUI (f.inputs.get ⟨k, hk⟩) = (f.inputs.map stripUI).get ⟨k, hlt2⟩ := by
    simp [List.getElem_map]
  rw [hget, list_set_get_self _ k hlt2]

/-- The boolean computed by the validateForm loop is the conjunction of the
per-field outcomes against the initial form, over the positions not yet
processed, provided the fuel covers them. -/
theorem validateFormLoop_fst (cfg : FormCfg) :
    ∀ (fuel k : Nat) (acc : Bool) (f : FormState), f.inputs.length ≤ k + fuel →
      (validateFormLoop cfg fuel f k acc).1 =
        (acc && (f.inputs.drop k).all
          (fun j => !(j.required || jsTrim j.value != "") || (fieldError cfg f j).isNone)) := by
  intro fuel
  induction fuel with
  | zero =>
    intro k acc f hlen
    have hd : f.inputs.drop k = [] := List.drop_eq_nil_of_le (by omega)
    simp [validateFormLoop, hd]
  | succ n ih =>
    intro k acc f hlen
    simp only [validateFormLoop]
    by_cases hk : k < f.inputs.length
    · rw [dif_pos hk]
      have hdrop : f.inputs.drop k = f.inputs.get ⟨k, hk⟩ :: f.inputs.drop (k + 1) :=
        List.drop_eq_getElem_cons hk
      by_cases hrel :
          ((f.inputs.get ⟨k, hk⟩).required || jsTrim (f.inputs.get ⟨k, hk⟩).value != "") = true
      · rw [if_pos hrel]
        have hlen2 :
            (({ f with inputs := f.inputs.set k (validateField cfg f (f.inputs.get ⟨k, hk⟩)).2 } : FormState)).inputs.length ≤ (k + 1) + n := by
          simp [List.length_set]
          omega
        rw [ih (k + 1) _ _ hlen2]
        have hstrip := stripSet cfg f k hk
        have hfun :
            (fun j => !(j.required || jsTrim j.value != "") ||
              (fieldError cfg
                ({ f with inputs := f.inputs.set k (validateField cfg f (f.inputs.get ⟨k, hk⟩)).2 } : FormState) j).isNone)
            = (fun j => !(j.required || jsTrim j.value != "") || (fieldError cfg f j).isNone) := by
          funext j
          rw [fieldError_congr cfg j hstrip]
        have hdrop2 :
            (({ f with inputs := f.inputs.set k (validateField cfg f (f.inputs.get ⟨k, hk⟩)).2 } : FormState)).inputs.drop (k + 1)
              = f.inputs.drop (k + 1) := by
          exact list_drop_succ_set _ k _
        rw [hdrop2, hfun, hdrop]
        rw [List.all_cons]
        rw [validateField_fst]
        simp only [hrel, Bool.not_true, Bool.false_or]
        rw [Bool.and_assoc]
      · rw [if_neg hrel]
        rw [ih (k + 1) acc f (by omega)]
        rw [hdrop, List.all_cons]
        have hrel2 : ((f.inputs.get ⟨k, hk⟩).required || jsTrim (f.inputs.get ⟨k, hk⟩).value != "") = false := by
          cases hx : ((f.inputs.get ⟨k, hk⟩).required || jsTrim (f.inputs.get ⟨k, hk⟩).value != "") with
          | true => exact absurd hx hrel
          | false => rfl
        rw [hrel2]
        simp
    · rw [dif_neg hk]
      have hd : f.inputs.drop k = [] := List.drop_eq_nil_of_le (by omega)
      simp [hd]

/-- The validateForm loop leaves the form id, the general error, and the
value-level content of every input unchanged. -/
theorem validateFormLoop_snd (cfg : FormCfg) :
    ∀ (fuel k : Nat) (acc : Bool) (f : FormState),
      (validateFormLoop cfg fuel f k acc).2.id = f.id ∧
      (validateFormLoop cfg fuel f k acc).2.generalError = f.generalError ∧
      (validateFormLoop cfg fuel f k acc).2.inputs.map stripUI = f.inputs.map stripUI := by
  intro fuel
  induction fuel with
  | zero => intro k acc f; simp [validateFormLoop]
  | succ n ih =>
    intro k acc f
    simp only [validateFormLoop]
    by_cases hk : k < f.inputs.length
    · rw [dif_pos hk]
      by_cases hrel :
          ((f.inputs.get ⟨k, hk⟩).required || jsTrim (f.inputs.get ⟨k, hk⟩).value != "") = true
      · rw [if_pos hrel]
        obtain ⟨h1, h2, h3⟩ := ih (k + 1)
          (acc && (validateField cfg f (f.inputs.get ⟨k, hk⟩)).1)
          ({ f with inputs := f.inputs.set k (validateField cfg f (f.inputs.get ⟨k, hk⟩)).2 })
        refine ⟨h1.trans rfl, h2.trans rfl, h3.trans ?_⟩
        exact stripSet cfg f k hk
      · rw [if_neg hrel]
        exact ih (k + 1) acc f
    · rw [dif_neg hk]
      exact ⟨rfl, rfl, rfl⟩

/-- The boolean of validateForm, as a per-field conjunction. -/
theorem validateForm_fst (cfg : FormCfg) (f : FormState) :
    (validateForm cfg f).1 =
      f.inputs.all
        (fun j => !(j.required || jsTrim j.value != "") || (fieldError cfg f j).isNone) := by
  unfold validateForm
  rw [validateFormLoop_fst cfg f.inputs.length 0 true f (by omega)]
  simp

/-- validateForm mutates presentation state only. -/
theorem validateForm_snd (cfg : FormCfg) (f : FormState) :
    (validateForm cfg f).2.id = f.id ∧
    (validateForm cfg f).2.generalError = f.generalError ∧
    (validateForm cfg f).2.inputs.map stripUI = f.inputs.map stripUI := by
  unfold validateForm
  exact validateFormLoop_snd cfg f.inputs.length 0 true f

end Form

namespace Form

/-- A required field with an empty trimmed value fails with the required
message, before any other check runs. -/
theorem fieldError_required_empty (cfg : FormCfg) (f : FormState) (i : Input)
    (hreq : i.required = true) (hempty : jsTrim i.value = "") :
    fieldError cfg f i = some (msgFor cfg "required") := by
  unfold fieldError
  have hb : (jsTrim i.value == "") = true := beq_iff_eq.mpr hempty
  simp [hreq, hb]

/-- C1: validateForm returns true iff every required field has a nonempty
trimmed value and passes per-field validation, and every optional field with
a nonempty trimmed value passes per-field validation.  Optional empty fields
do not occur in either condition: they are skipped and never affect the
result. -/
theorem validateForm_spec (cfg : FormCfg) (f : FormState) :
    (validateForm cfg f).1 = true ↔
      ((∀ i ∈ f.inputs, i.required = true →
          jsTrim i.value ≠ "" ∧ (validateField cfg f i).1 = true) ∧
       (∀ i ∈ f.inputs, i.required = false → jsTrim i.value ≠ "" →
          (validateField cfg f i).1 = true)) := by
  rw [validateForm_fst, List.all_eq_true]
  constructor
  · intro h
    constructor
    · intro i hi hreq
      have hb := h i hi
      have hne : jsTrim i.value ≠ "" := by
        intro hempty
        rw [fieldError_required_empty cfg f i hreq hempty] at hb
        simp [hreq] at hb
      refine ⟨hne, ?_⟩
      rw [validateField_fst]
      simpa [hreq] using hb
    · intro i hi hreq hne
      have hb := h i hi
      rw [validateField_fst]
      have hb2 : (jsTrim i.value != "") = true := bne_iff_ne.mpr hne
      simpa [hreq, hb2] using hb
  · rintro ⟨h1, h2⟩ i hi
    cases hreq : i.required with
    | true =>
      obtain ⟨hne, hv⟩ := h1 i hi hreq
      rw [validateField_fst] at hv
      simp [hv]
    | false =>
      by_cases hne : jsTrim i.value = ""
      · have hb : (jsTrim i.value != "") = false := by
          simp [bne, beq_iff_eq, hne]
        simp [hb]
      · have hv := h2 i hi hreq hne
        rw [validateField_fst] at hv
        simp [hv]

/-- C1 witness: the specification instantiated at a concrete configuration
and form. -/
theorem validateForm_spec_witness :
    (validateForm exCfg exForm).1 = true ↔
      ((∀ i ∈ exForm.inputs, i.required = true →
          jsTrim i.value ≠ "" ∧ (validateField exCfg exForm i).1 = true) ∧
       (∀ i ∈ exForm.inputs, i.required = false → jsTrim i.value ≠ "" →
          (validateField exCfg exForm i).1 = true)) :=
  validateForm_spec exCfg exForm

end Form

namespace Form

/-- validateField reports exactly the first failure of the source-ordered
check list. -/
theorem fieldError_eq_checkList (cfg : FormCfg) (f : FormState) (i : Input) :
    fieldError cfg f i = (checkList cfg (pwValue f) i).findSome? id := by
  unfold fieldError checkList
  by_cases h1 : (i.required && (jsTrim i.value == "")) = true
  · simp [h1, List.findSome?_cons]
  · by_cases h2 : (i.ty == "email" && jsTrim i.value != "" &&
        !(ruleFor cfg "email" (jsTrim i.value))) = true
    · simp [h1, h2, List.findSome?_cons]
    · cases hc : customFails cfg i.dataValidate (jsTrim i.value) with
      | some m => simp [h1, h2, hc, List.findSome?_cons]
      | none =>
        by_cases h4 : (i.ty == "tel" && jsTrim i.value != "" &&
            !(ruleFor cfg "phone" (jsTrim i.value))) = true
        · simp [h1, h2, hc, h4, List.findSome?_cons]
        · by_cases h5 : (i.ty == "password" && jsTrim i.value != "" &&
              i.id == "password" && !(ruleFor cfg "password" (jsTrim i.value))) = true
          · simp [h1, h2, hc, h4, h5, List.findSome?_cons]
          · cases hpw : pwValue f with
            | none => simp [h1, h2, hc, h4, h5, hpw, List.findSome?_cons]
            | some pv =>
              by_cases h6 : (i.id == "password-confirmation" &&
                  jsTrim i.value != "") = true
              · by_cases h7 : (jsTrim i.value != pv) = true
                · simp [h1, h2, hc, h4, h5, hpw, h6, h7, List.findSome?_cons]
                · simp [h1, h2, hc, h4, h5, hpw, h6, h7, List.findSome?_cons]
              · simp [h1, h2, hc, h4, h5, hpw, h6, List.findSome?_cons]

end Form

namespace Form

/-- C2 counterexample: a field whose id is password but whose type attribute
is not password (exactly the state the show-password toggle of Form.js
lines 77-81 leaves the field in) is never tested against the password rule,
although its trimmed value is nonempty and the rule rejects it: validateField
returns true and shows no message, where the claim as stated requires a
failure with the password message at check five. -/
theorem validateField_order_cex :
    cexInput.id = "password" ∧ jsTrim cexInput.value ≠ "" ∧
    ruleFor exCfg "password" (jsTrim cexInput.value) = false ∧
    (validateField exCfg cexForm cexInput).1 = true ∧
    ((validateField exCfg cexForm cexInput).2).errorMsg = none := by
  decide

/-- C2 amended: validateField checks in the fixed source order
required-empty, email, custom data-validate rule, tel, password rule (on
fields of type password with id password), password confirmation, returns
false exactly when some check fails, and displays the message of the first
failing check; when no check fails it returns true.  checkList is that
ordered list of independent per-check outcomes and findSome? picks the first
failure. -/
theorem validateField_order_amended (cfg : FormCfg) (f : FormState) (i : Input) :
    ((validateField cfg f i).1 = true ↔
      (checkList cfg (pwValue f) i).findSome? id = none) ∧
    ((validateField cfg f i).2).errorMsg =
      (checkList cfg (pwValue f) i).findSome? id := by
  constructor
  · rw [validateField_fst, fieldError_eq_checkList]
    cases (checkList cfg (pwValue f) i).findSome? id <;> simp
  · rw [validateField_errorMsg, fieldError_eq_checkList]

/-- C2 witness: the amended order characterization at a concrete field. -/
theorem validateField_order_amended_witness :
    ((validateField exCfg exPwForm exConfInput).1 = true ↔
      (checkList exCfg (pwValue exPwForm) exConfInput).findSome? id = none) ∧
    ((validateField exCfg exPwForm exConfInput).2).errorMsg =
      (checkList exCfg (pwValue exPwForm) exConfInput).findSome? id :=
  validateField_order_amended exCfg exPwForm exConfInput

end Form

namespace Form

/-- For a nonempty password-confirmation field of password type with no
custom rule, every earlier check is skipped and the error reduces to the
comparison against the current primary password value. -/
theorem fieldError_confirmation (cfg : FormCfg) (f : FormState) (i : Input) (pv : String)
    (hid : i.id = "password-confirmation") (hty : i.ty = "password")
    (hdv : i.dataValidate = none) (hne : jsTrim i.value ≠ "")
    (hp : pwValue f = some pv) :
    fieldError cfg f i =
      (if jsTrim i.value != pv then some (msgFor cfg "passwordMatch") else none) := by
  unfold fieldError
  have hb0 : (jsTrim i.value == "") = false := beq_eq_false_iff_ne.mpr hne
  have hb1 : (i.required && (jsTrim i.value == "")) = false := by simp [hb0]
  have heml : (i.ty == "email") = false := by rw [hty]; decide
  have htel : (i.ty == "tel") = false := by rw [hty]; decide
  have hpw5 : (i.id == "password") = false := by rw [hid]; decide
  have hconf : (i.id == "password-confirmation") = true := by rw [hid]; decide
  have hbne : (jsTrim i.value != "") = true := bne_iff_ne.mpr hne
  simp [hb1, heml, htel, hpw5, hconf, hbne, hdv, customFails, hp]

/-- C3: a nonempty password-confirmation field fails validation, with the
passwordMatch message, exactly when its value under validation differs from
the current value of the primary password field at the moment validateField
runs.  The comparison reads the primary value out of the form state passed
in, so re-validation after the primary password changed compares against the
new value: with the same confirmation value and a form whose primary value
differs from it, the left side of the equivalence holds. -/
theorem passwordConfirmation_iff (cfg : FormCfg) (f : FormState) (i : Input) (pv : String)
    (hid : i.id = "password-confirmation") (hty : i.ty = "password")
    (hdv : i.dataValidate = none) (hne : jsTrim i.value ≠ "")
    (hp : pwValue f = some pv) :
    ((validateField cfg f i).1 = false ↔ jsTrim i.value ≠ pv) ∧
    (jsTrim i.value ≠ pv →
      ((validateField cfg f i).2).errorMsg = some (msgFor cfg "passwordMatch")) := by
  have hfe := fieldError_confirmation cfg f i pv hid hty hdv hne hp
  constructor
  · rw [validateField_fst, hfe]
    by_cases hd : jsTrim i.value = pv
    · have hb : (jsTrim i.value != pv) = false := by simp [bne, beq_iff_eq, hd]
      simp [hb, hd]
    · have hb : (jsTrim i.value != pv) = true := bne_iff_ne.mpr hd
      simp [hb, hd]
  · intro hd
    rw [validateField_errorMsg, hfe]
    have hb : (jsTrim i.value != pv) = true := bne_iff_ne.mpr hd
    simp [hb]

/-- C3 witness: a concrete confirmation field differing from the primary
password in the last character fails with the passwordMatch message. -/
theorem passwordConfirmation_iff_witness :
    ((validateField exCfg exPwForm exConfInput).1 = false ↔
      jsTrim exConfInput.value ≠ "abcd1234") ∧
    (jsTrim exConfInput.value ≠ "abcd1234" →
      ((validateField exCfg exPwForm exConfInput).2).errorMsg =
        some (msgFor exCfg "passwordMatch")) :=
  passwordConfirmation_iff exCfg exPwForm exConfInput "abcd1234"
    (by decide) (by decide) (by decide) (by decide) (by decide)

end Form

namespace Form

/-- C4: when full-form validation passes and the configured onSubmit
callback returns the boolean false, handleSubmit stops at once: the storage
is untouched (neither the single-record slot nor the history is written),
the event trace is unchanged (so no success notification is dispatched and
onSuccess is never invoked), and no deferred reset is scheduled. -/
theorem onSubmitFalse_aborts (w : World) (ts : String) (cb : SubRecord → CbRet)
    (hv : (validateForm w.cfg w.form).1 = true)
    (hcb : w.cfg.onSubmit = some cb)
    (hfalse : cb (collectFormData w.form) = CbRet.retFalse) :
    (handleSubmit w ts).storage = w.storage ∧
    (handleSubmit w ts).events = w.events ∧
    (handleSubmit w ts).pendingResets = w.pendingResets := by
  unfold handleSubmit
  simp [hv, hcb, hfalse]

/-- C4 witness: a concrete vetoing submission leaves storage, events and
pending resets unchanged. -/
theorem onSubmitFalse_aborts_witness :
    (handleSubmit exWorldVeto "t").storage = exWorldVeto.storage ∧
    (handleSubmit exWorldVeto "t").events = exWorldVeto.events ∧
    (handleSubmit exWorldVeto "t").pendingResets = exWorldVeto.pendingResets :=
  onSubmitFalse_aborts exWorldVeto "t" (fun _ => CbRet.retFalse)
    (by decide) (by rfl) (by rfl)

end Form

namespace Form

/-- A validated submission (validation passed, onSubmit does not veto)
reduces handleSubmit to the persistence tail over the collected data and the
validated form. -/
theorem handleSubmit_success (w : World) (ts : String)
    (hv : (validateForm w.cfg w.form).1 = true)
    (ha : onSubmitAllows w = true) :
    handleSubmit w ts =
      afterSubmit
        { w with formData := collectFormData w.form,
                 form := (validateForm w.cfg w.form).2 } ts := by
  unfold handleSubmit
  cases hcb : w.cfg.onSubmit with
  | none => simp [hv, hcb]
  | some cb =>
    have hne : (cb (collectFormData w.form) == CbRet.retFalse) = false := by
      unfold onSubmitAllows at ha
      rw [hcb] at ha
      simpa [bne] using ha
    simp [hv, hcb, hne]

/-- When the storage throws, saveToStorage catches at the first call, logs,
and changes nothing else. -/
theorem saveToStorage_broken (w : World) (ts : String)
    (hb : w.storage.broken = true) :
    saveToStorage w ts = { w with events := w.events ++ [saveErrorLog] } := by
  unfold saveToStorage Storage.setItem Storage.removeItem
  cases hrem : shouldRememberOf w.form <;> simp [hb, hrem]

/-- With a working storage and remembering enabled, the single-record slot of
the form identity holds exactly the submitted record after saveToStorage,
whatever the history slot held before. -/
theorem saveToStorage_slot (w : World) (ts : String)
    (hb : w.storage.broken = false)
    (hrem : shouldRememberOf w.form = true) :
    getAssoc (saveToStorage w ts).storage.items (formIdOf w.form) =
      some (SVal.vrecord (setAssoc w.formData "submittedAt" (FVal.s ts))) ∧
    (saveToStorage w ts).storage.broken = false := by
  have hkey : (formIdOf w.form ++ "_history") ≠ formIdOf w.form :=
    fun hx => (formId_ne_histKey (formIdOf w.form)) hx.symm
  unfold saveToStorage Storage.setItem Storage.getItem
  simp only [hb, hrem, if_true, if_false, Bool.false_eq_true, reduceIte]
  split
  · exact ⟨getAssoc_setAssoc_self _ _ _, rfl⟩
  · constructor
    · dsimp only
      rw [getAssoc_setAssoc_ne _ _ _ _ (formId_ne_histKey (formIdOf w.form))]
      exact getAssoc_setAssoc_self _ _ _
    · rfl

end Form

namespace Form

/-- Reading the history hypothesis back as a successful parse. -/
theorem historyOf_parse (st : Storage) (fid : String) (h : List SubRecord)
    (hh : historyOf st fid = some h) :
    parseHistory (getAssoc st.items (fid ++ "_history")) = Except.ok h := by
  unfold historyOf at hh
  cases hga : getAssoc st.items (fid ++ "_history") with
  | none =>
    rw [hga] at hh
    simp only [Option.some.injEq] at hh
    subst hh
    rfl
  | some sv =>
    cases sv with
    | vrecord r => rw [hga] at hh; simp at hh
    | vrecords rs =>
      rw [hga] at hh
      simp only [Option.some.injEq] at hh
      subst hh
      rfl
    | vnull =>
      rw [hga] at hh
      simp only [Option.some.injEq] at hh
      subst hh
      rfl
    | vcorrupt s => rw [hga] at hh; simp at hh

/-- With a working storage and a parsable history slot, saveToStorage writes
or clears the single-record slot according to the remember gate, appends the
record to the history, evicts the oldest entry past ten, and logs nothing. -/
theorem saveToStorage_ok (w : World) (ts : String) (h : List SubRecord)
    (hb : w.storage.broken = false)
    (hh : historyOf w.storage (formIdOf w.form) = some h) :
    saveToStorage w ts =
      { w with storage :=
          { items :=
              setAssoc
                (if shouldRememberOf w.form then
                  setAssoc w.storage.items (formIdOf w.form)
                    (SVal.vrecord (setAssoc w.formData "submittedAt" (FVal.s ts)))
                 else removeAssoc w.storage.items (formIdOf w.form))
                (formIdOf w.form ++ "_history")
                (SVal.vrecords
                  (if (h ++ [setAssoc w.formData "submittedAt" (FVal.s ts)]).length > 10 then
                    (h ++ [setAssoc w.formData "submittedAt" (FVal.s ts)]).tail
                   else h ++ [setAssoc w.formData "submittedAt" (FVal.s ts)])),
            broken := false } } := by
  have hparse := historyOf_parse w.storage (formIdOf w.form) h hh
  unfold saveToStorage Storage.setItem Storage.getItem Storage.removeItem
  cases hrem : shouldRememberOf w.form with
  | true =>
    simp only [hrem, hb, Bool.false_eq_true, reduceIte, if_true, if_false]
    rw [getAssoc_setAssoc_ne _ _ _ _
      (fun hx => (formId_ne_histKey (formIdOf w.form)) hx.symm)]
    rw [hparse]
  | false =>
    simp only [hrem, hb, Bool.false_eq_true, reduceIte, if_true, if_false]
    rw [getAssoc_removeAssoc_ne _ _ _
      (fun hx => (formId_ne_histKey (formIdOf w.form)) hx.symm)]
    rw [hparse]

end Form

namespace Form

/-- Validation leaves the storage key of the form unchanged. -/
theorem formIdOf_validateForm (cfg : FormCfg) (f : FormState) :
    formIdOf (validateForm cfg f).2 = formIdOf f := by
  unfold formIdOf
  rw [(validateForm_snd cfg f).1]

/-- The persistence tail changes the storage exactly as saveToStorage does. -/
theorem afterSubmit_storage (w : World) (ts : String) :
    (afterSubmit w ts).storage = (saveToStorage w ts).storage := by
  unfold afterSubmit
  cases hs : (saveToStorage w ts).cfg.hasOnSuccess <;> simp [hs]

/-- C5: a successful submit over a well-formed stored history of at most ten
records appends exactly the submitted record at the end; when the history
already holds ten records the oldest one is evicted first, so the ten most
recent records remain in their original relative order, as observed through
getSubmissions; the resulting length never exceeds ten. -/
theorem history_append_capped (w : World) (ts : String) (h : List SubRecord)
    (hb : w.storage.broken = false)
    (hv : (validateForm w.cfg w.form).1 = true)
    (ha : onSubmitAllows w = true)
    (hh : historyOf w.storage (formIdOf w.form) = some h)
    (hlen : h.length ≤ 10) :
    getSubmissions (handleSubmit w ts).storage (formIdOf w.form) =
      GetSubsRet.arr
        (if h.length < 10 then h ++ [submittedRecord w ts]
         else h.tail ++ [submittedRecord w ts]) ∧
    (if h.length < 10 then h ++ [submittedRecord w ts]
     else h.tail ++ [submittedRecord w ts]).length ≤ 10 := by
  have hid2 := formIdOf_validateForm w.cfg w.form
  have hmain :
      getSubmissions (handleSubmit w ts).storage (formIdOf w.form) =
        GetSubsRet.arr
          (if (h ++ [submittedRecord w ts]).length > 10 then
            (h ++ [submittedRecord w ts]).tail
           else h ++ [submittedRecord w ts]) := by
    rw [handleSubmit_success w ts hv ha, afterSubmit_storage]
    have hb2 : ({ w with formData := collectFormData w.form, form := (validateForm w.cfg w.form).2 } : World).storage.broken = false := hb
    have hh2 : historyOf ({ w with formData := collectFormData w.form, form := (validateForm w.cfg w.form).2 } : World).storage (formIdOf ({ w with formData := collectFormData w.form, form := (validateForm w.cfg w.form).2 } : World).form) = some h := by
      dsimp only
      rw [hid2]
      exact hh
    rw [saveToStorage_ok _ ts h hb2 hh2]
    dsimp only
    rw [hid2]
    unfold getSubmissions Storage.getItem
    simp only [Bool.false_eq_true, reduceIte, if_true, if_false]
    rw [getAssoc_setAssoc_self]
    simp [svalTruthy, submittedRecord]
  refine ⟨?_, ?_⟩
  · rw [hmain]
    congr 1
    by_cases hc : h.length < 10
    · have hgt : ¬ ((h ++ [submittedRecord w ts]).length > 10) := by
        simp [List.length_append]
        omega
      rw [if_neg hgt, if_pos hc]
    · have hgt : (h ++ [submittedRecord w ts]).length > 10 := by
        simp [List.length_append]
        omega
      rw [if_pos hgt, if_neg hc]
      cases h with
      | nil => simp at hc
      | cons a t => rfl
  · by_cases hc : h.length < 10
    · rw [if_pos hc]
      simp [List.length_append]
      omega
    · rw [if_neg hc]
      cases h with
      | nil => simp at hc
      | cons a t =>
        simp [List.length_append] at hlen ⊢
        omega

/-- C5 witness: submitting over an empty history stores a one-record
history. -/
theorem history_append_capped_witness :
    (getSubmissions (handleSubmit exWorld "t1").storage (formIdOf exWorld.form) =
      GetSubsRet.arr
        (if ([] : List SubRecord).length < 10 then
          ([] : List SubRecord) ++ [submittedRecord exWorld "t1"]
         else ([] : List SubRecord).tail ++ [submittedRecord exWorld "t1"]) ∧
    (if ([] : List SubRecord).length < 10 then
      ([] : List SubRecord) ++ [submittedRecord exWorld "t1"]
     else ([] : List SubRecord).tail ++ [submittedRecord exWorld "t1"]).length ≤ 10) :=
  history_append_capped exWorld "t1" []
    (by decide) (by decide) (by decide) (by decide) (by decide)

end Form

namespace Form

/-- C6: with remembering enabled and a working storage, a successful submit
writes exactly the collected field values plus the timestamp into the
single-record slot of the form identity, and a fresh controller instance for
the same identity reads back exactly that record and populates its matching
fields by name from it, with only the submittedAt timestamp key excluded by
populateForm. -/
theorem storage_roundTrip (w : World) (ts : String) (f2 : FormState)
    (hb : w.storage.broken = false)
    (hv : (validateForm w.cfg w.form).1 = true)
    (ha : onSubmitAllows w = true)
    (hrem : shouldRememberOf w.form = true)
    (hid : f2.id = w.form.id) :
    getAssoc (handleSubmit w ts).storage.items (formIdOf w.form) =
      some (SVal.vrecord (submittedRecord w ts)) ∧
    loadFromStorage f2 (handleSubmit w ts).storage =
      checkRememberBox (populateForm f2 (submittedRecord w ts)) := by
  have hid2 := formIdOf_validateForm w.cfg w.form
  have hrem2 : shouldRememberOf (validateForm w.cfg w.form).2 = true := by
    rw [shouldRememberOf_strip (validateForm w.cfg w.form).2 w.form
      (validateForm_snd w.cfg w.form).2.2]
    exact hrem
  rw [handleSubmit_success w ts hv ha, afterSubmit_storage]
  obtain ⟨hslot, hbroken⟩ :=
    saveToStorage_slot ({ w with formData := collectFormData w.form, form := (validateForm w.cfg w.form).2 } : World) ts hb hrem2
  dsimp only at hslot
  rw [hid2] at hslot
  constructor
  · exact hslot
  · unfold loadFromStorage Storage.getItem
    have hfid : formIdOf f2 = formIdOf w.form := by
      unfold formIdOf
      rw [hid]
    rw [hfid]
    simp only [hbroken, Bool.false_eq_true, reduceIte, if_true, if_false]
    rw [hslot]
    rfl

/-- C6 witness: the round trip at a concrete world and a fresh empty form of
the same identity. -/
theorem storage_roundTrip_witness :
    getAssoc (handleSubmit exWorld "t1").storage.items (formIdOf exWorld.form) =
      some (SVal.vrecord (submittedRecord exWorld "t1")) ∧
    loadFromStorage exFreshForm (handleSubmit exWorld "t1").storage =
      checkRememberBox (populateForm exFreshForm (submittedRecord exWorld "t1")) :=
  storage_roundTrip exWorld "t1" exFreshForm
    (by decide) (by decide) (by decide) (by decide) (by decide)

end Form

namespace Form

end Form

namespace Form

/-- classList.remove leaves no occurrence of the removed class. -/
theorem not_mem_classRemove_self (cs : List String) (c : String) :
    c ∉ classRemove cs c := by
  intro hc
  have hm := List.mem_filter.mp hc
  simp at hm

/-- classList.remove introduces no class. -/
theorem not_mem_classRemove_of (cs : List String) (c d : String)
    (h : c ∉ cs) : c ∉ classRemove cs d := by
  intro hc
  exact h (List.mem_filter.mp hc).1

/-- The shared clearing steps bring every input to the cleared state: value
back at its markup default, none of the three validation classes, no error
message. -/
theorem clearedForm_clears (f : FormState) :
    ∀ i ∈ (clearedForm f).inputs,
      i.value = i.defaultValue ∧
      "form__input--valid" ∉ i.classes ∧
      "form__input--invalid" ∉ i.classes ∧
      "form__input--error" ∉ i.classes ∧
      i.errorMsg = none := by
  intro i hi
  unfold clearedForm clearValidityClasses clearAllErrorsF formDomReset at hi
  dsimp only at hi
  obtain ⟨j1, hj1, rfl⟩ := List.mem_map.mp hi
  obtain ⟨j2, hj2, rfl⟩ := List.mem_map.mp hj1
  obtain ⟨j3, hj3, rfl⟩ := List.mem_map.mp hj2
  refine ⟨rfl, ?_, ?_, ?_, rfl⟩
  · exact not_mem_classRemove_of _ _ _ (not_mem_classRemove_self _ _)
  · exact not_mem_classRemove_self _ _
  · exact not_mem_classRemove_of _ _ _
      (not_mem_classRemove_of _ _ _ (not_mem_classRemove_self _ _))

/-- C8: reset() empties the tracked data object, restores every field to its
markup default, removes every validity class and every error display, and
leaves the storage — hence the submission history observed through
getSubmissions — untouched for every form identity. -/
theorem reset_clears_and_preserves_history (w : World) :
    (reset w).formData = [] ∧
    (∀ i ∈ (reset w).form.inputs,
      i.value = i.defaultValue ∧
      "form__input--valid" ∉ i.classes ∧
      "form__input--invalid" ∉ i.classes ∧
      "form__input--error" ∉ i.classes ∧
      i.errorMsg = none) ∧
    (reset w).storage = w.storage ∧
    (∀ fid, getSubmissions (reset w).storage fid = getSubmissions w.storage fid) := by
  refine ⟨rfl, ?_, rfl, fun fid => rfl⟩
  intro i hi
  exact clearedForm_clears w.form i hi

/-- C8 witness: the clearing and the history frame at a concrete world. -/
theorem reset_clears_and_preserves_history_witness :
    (reset exWorld).formData = [] ∧
    (∀ i ∈ (reset exWorld).form.inputs,
      i.value = i.defaultValue ∧
      "form__input--valid" ∉ i.classes ∧
      "form__input--invalid" ∉ i.classes ∧
      "form__input--error" ∉ i.classes ∧
      i.errorMsg = none) ∧
    (reset exWorld).storage = exWorld.storage ∧
    (∀ fid, getSubmissions (reset exWorld).storage fid =
      getSubmissions exWorld.storage fid) :=
  reset_clears_and_preserves_history exWorld

/-- C9 counterexample: the deferred reset of handleSubmit carries no
generation token and is never cancelled.  After a second successful submit
that begins before the first deferred reset fires, both resets are still
pending, and firing the stale one mutates the shared form state (it clears
the second cycle feedback early), so the claim that stale deferred resets
are cancelled or guarded is false on this code. -/
theorem staleReset_unguarded_cex :
    (handleSubmit (handleSubmit exWorld "t1") "t2").pendingResets = 2 ∧
    (fireDeferredReset (handleSubmit (handleSubmit exWorld "t1") "t2")).form ≠
      (handleSubmit (handleSubmit exWorld "t1") "t2").form := by
  decide

/-- C9 amended: a stale deferred reset is neither cancelled nor guarded and
does run, but because the reset closure clears every field unconditionally
(default value, no validity classes, no error), the fields are left in one
uniform cleared state, never in a mixed validity state. -/
theorem staleReset_uniform_clear (w : World) (hp : w.pendingResets ≠ 0) :
    (fireDeferredReset w).pendingResets = w.pendingResets - 1 ∧
    ∀ i ∈ (fireDeferredReset w).form.inputs,
      i.value = i.defaultValue ∧
      "form__input--valid" ∉ i.classes ∧
      "form__input--invalid" ∉ i.classes ∧
      "form__input--error" ∉ i.classes ∧
      i.errorMsg = none := by
  unfold fireDeferredReset
  rw [if_neg hp]
  exact ⟨rfl, fun i hi => clearedForm_clears w.form i hi⟩

/-- C9 witness: firing the reset scheduled by a concrete submit clears every
field uniformly. -/
theorem staleReset_uniform_clear_witness :
    (fireDeferredReset (handleSubmit exWorld "t1")).pendingResets =
      (handleSubmit exWorld "t1").pendingResets - 1 ∧
    ∀ i ∈ (fireDeferredReset (handleSubmit exWorld "t1")).form.inputs,
      i.value = i.defaultValue ∧
      "form__input--valid" ∉ i.classes ∧
      "form__input--invalid" ∉ i.classes ∧
      "form__input--error" ∉ i.classes ∧
      i.errorMsg = none :=
  staleReset_uniform_clear (handleSubmit exWorld "t1") (by decide)

/-- C10: the static getSubmissions is a total function that never
propagates a failure: a throwing storage, a missing history entry, and a
stored value that is not valid JSON all yield the empty array. -/
theorem getSubmissions_never_throws (st : Storage) (fid : String) :
    (st.broken = true → getSubmissions st fid = GetSubsRet.arr []) ∧
    (getAssoc st.items (fid ++ "_history") = none →
      getSubmissions st fid = GetSubsRet.arr []) ∧
    (∀ s, getAssoc st.items (fid ++ "_history") = some (SVal.vcorrupt s) →
      getSubmissions st fid = GetSubsRet.arr []) := by
  refine ⟨?_, ?_, ?_⟩
  · intro hb
    unfold getSubmissions Storage.getItem
    simp [hb]
  · intro hn
    unfold getSubmissions Storage.getItem
    cases hb : st.broken
    · simp [hn]
    · simp
  · intro s hs
    unfold getSubmissions Storage.getItem
    cases hb : st.broken
    · simp [hs, svalTruthy]
    · simp

/-- C10 witness: a corrupt stored history entry yields the empty array. -/
theorem getSubmissions_never_throws_witness :
    getSubmissions exStorageCorrupt "fid" = GetSubsRet.arr [] :=
  (getSubmissions_never_throws exStorageCorrupt "fid").2.2 "oops" (by decide)

end Form

namespace Form

/-- The event and counter bookkeeping of the persistence tail, independent of
what the storage did. -/
theorem afterSubmit_events (w : World) (ts : String) :
    (afterSubmit w ts).events =
      (saveToStorage w ts).events ++
        notifyEvents (saveToStorage w ts).cfg (saveToStorage w ts).toastAvailable ++
        (if (saveToStorage w ts).cfg.hasOnSuccess then
          [Event.onSuccessCalled (saveToStorage w ts).formData]
         else []) ∧
    (afterSubmit w ts).pendingResets = (saveToStorage w ts).pendingResets + 1 := by
  unfold afterSubmit
  cases hs : (saveToStorage w ts).cfg.hasOnSuccess <;> simp [hs]

/-- Whenever persistence fails — the storage throws on the first access, or
the stored history fails to parse as an array — saveToStorage catches, logs
exactly one console error, and leaves every non-storage component of the
world unchanged. -/
theorem saveToStorage_fail_spec (w : World) (ts : String)
    (hfail : w.storage.broken = true ∨
      historyOf w.storage (formIdOf w.form) = none) :
    (saveToStorage w ts).events = w.events ++ [saveErrorLog] ∧
    (saveToStorage w ts).cfg = w.cfg ∧
    (saveToStorage w ts).formData = w.formData ∧
    (saveToStorage w ts).toastAvailable = w.toastAvailable ∧
    (saveToStorage w ts).pendingResets = w.pendingResets := by
  by_cases hb : w.storage.broken = true
  · rw [saveToStorage_broken w ts hb]
    exact ⟨rfl, rfl, rfl, rfl, rfl⟩
  · have hh : historyOf w.storage (formIdOf w.form) = none := by
      cases hfail with
      | inl h => exact absurd h hb
      | inr h => exact h
    have hb2 : w.storage.broken = false := by
      cases hbv : w.storage.broken
      · rfl
      · exact absurd hbv hb
    have hparse : parseHistory (getAssoc w.storage.items (formIdOf w.form ++ "_history")) =
        Except.error () := by
      unfold historyOf at hh
      cases hga : getAssoc w.storage.items (formIdOf w.form ++ "_history") with
      | none => rw [hga] at hh; simp at hh
      | some sv =>
        cases sv with
        | vrecord r => rfl
        | vrecords rs => rw [hga] at hh; simp at hh
        | vnull => rw [hga] at hh; simp at hh
        | vcorrupt s => rfl
    unfold saveToStorage Storage.setItem Storage.getItem Storage.removeItem
    cases hrem : shouldRememberOf w.form with
    | true =>
      simp only [hrem, hb2, Bool.false_eq_true, reduceIte, if_true, if_false]
      rw [getAssoc_setAssoc_ne _ _ _ _
        (fun hx => (formId_ne_histKey (formIdOf w.form)) hx.symm)]
      rw [hparse]
      exact ⟨rfl, rfl, rfl, rfl, rfl⟩
    | false =>
      simp only [hrem, hb2, Bool.false_eq_true, reduceIte, if_true, if_false]
      rw [getAssoc_removeAssoc_ne _ _ _
        (fun hx => (formId_ne_histKey (formIdOf w.form)) hx.symm)]
      rw [hparse]
      exact ⟨rfl, rfl, rfl, rfl, rfl⟩

/-- C7: when the Storage collaborator fails during persistence of a
successful submit — it throws on access (read or write), or the stored
history does not parse — the failure is caught and logged (exactly one
saveErrorLog entry) and the cycle still notifies and resets: the success
notification events follow the log entry (and are nonempty since the success
message is enabled), onSuccess is invoked with the collected data, and the
deferred reset is scheduled.  Persistence failure never aborts the
user-visible success path. -/
theorem persistenceFailure_best_effort (w : World) (ts : String)
    (hfail : w.storage.broken = true ∨
      historyOf w.storage (formIdOf w.form) = none)
    (hv : (validateForm w.cfg w.form).1 = true)
    (ha : onSubmitAllows w = true)
    (hshow : w.cfg.showSuccessMessage = true)
    (hsucc : w.cfg.hasOnSuccess = true) :
    (handleSubmit w ts).events =
      w.events ++ [saveErrorLog] ++ notifyEvents w.cfg w.toastAvailable ++
        [Event.onSuccessCalled (collectFormData w.form)] ∧
    notifyEvents w.cfg w.toastAvailable ≠ [] ∧
    (handleSubmit w ts).pendingResets = w.pendingResets + 1 := by
  have hid2 := formIdOf_validateForm w.cfg w.form
  have hfail2 : ({ w with formData := collectFormData w.form, form := (validateForm w.cfg w.form).2 } : World).storage.broken = true ∨ historyOf ({ w with formData := collectFormData w.form, form := (validateForm w.cfg w.form).2 } : World).storage (formIdOf ({ w with formData := collectFormData w.form, form := (validateForm w.cfg w.form).2 } : World).form) = none := by
    cases hfail with
    | inl h => exact Or.inl h
    | inr h =>
      refine Or.inr ?_
      dsimp only
      rw [hid2]
      exact h
  obtain ⟨he, hc, hd, ht, hp⟩ := saveToStorage_fail_spec ({ w with formData := collectFormData w.form, form := (validateForm w.cfg w.form).2 } : World) ts hfail2
  rw [handleSubmit_success w ts hv ha]
  refine ⟨?_, ?_, ?_⟩
  · rw [(afterSubmit_events _ ts).1, he, hc, hd, ht]
    dsimp only
    rw [hsucc]
    simp [List.append_assoc]
  · unfold notifyEvents
    rw [hshow]
    by_cases hty : (w.cfg.successMessageType == "toast") = true
    · rw [if_pos rfl, if_pos hty]
      cases w.toastAvailable <;> simp
    · rw [if_pos rfl, if_neg hty]
      simp
  · rw [(afterSubmit_events _ ts).2, hp]

/-- C7 witness: a broken storage world still notifies, invokes onSuccess and
schedules the reset. -/
theorem persistenceFailure_best_effort_witness :
    (handleSubmit exWorldBroken "t").events =
      exWorldBroken.events ++ [saveErrorLog] ++
        notifyEvents exWorldBroken.cfg exWorldBroken.toastAvailable ++
        [Event.onSuccessCalled (collectFormData exWorldBroken.form)] ∧
    notifyEvents exWorldBroken.cfg exWorldBroken.toastAvailable ≠ [] ∧
    (handleSubmit exWorldBroken "t").pendingResets =
      exWorldBroken.pendingResets + 1 :=
  persistenceFailure_best_effort exWorldBroken "t" (Or.inl (by decide))
    (by decide) (by decide) (by decide) (by decide)

end Form
